import Mathlib

/-!
# Verification of the `Moji` rendering core (`moji.go`)

Shallow embedding of the composition / width / rendering core of the
repository.  Strings and output streams are modelled at code-point
granularity: a Go `string` becomes a `List Nat` of Unicode scalar values,
and the bytes a writer receives are modelled as the emitted code points
(the control bytes involved — space `0x20`, ESC `0x1B`, `'7'`, `'8'`,
backspace `0x08` — are single-byte in UTF-8, so they coincide with their
code points).  Byte *counts* returned by `WriteTo` are recovered through
`utf8Len`, the UTF-8 encoded length of a scalar value.

The global capability flags of `moji.go` (`SurrogatePairOk`,
`ZeroWidthJoinSequenceOk`, `VariationSequenceOk`, `ModifierSequenceOk`)
together with the external per-rune width table (`wtRuneWidth`, the
"Width Oracle" of the spec) are threaded as an explicit `Config` value.
-/

namespace Moji2

/-- The capability flags of `moji.go` plus the external width oracle
(`wtRuneWidth.RuneWidth`), threaded explicitly instead of being global
mutable state. -/
structure Config where
  surrogatePairOk : Bool
  zeroWidthJoinSequenceOk : Bool
  variationSequenceOk : Bool
  modifierSequenceOk : Bool
  runeWidth : Nat → Nat

/-- The constant `zeroWidthJoinRune` (moji.go line 168): U+200D ZERO
WIDTH JOINER. -/
def zeroWidthJoinRune : Nat := 0x200D

/-- The Moji interface with its implementations appearing in `moji.go`:
`_RawCodePoint` (a bare code point), `_WavingWhiteFlagCodePoint`
(the special flag code point U+1F3F3), `_ZeroWidthJoinSequence`,
`_ModifierSequence` and `_VariationSequence` (each an ordered `[2]Moji`
pair). -/
inductive Moji where
  | raw : Nat → Moji
  | flag : Moji
  | zwj : Moji → Moji → Moji
  | modifier : Moji → Moji → Moji
  | variation : Moji → Moji → Moji
deriving DecidableEq, Repr

/-- The code point of `_WavingWhiteFlagCodePoint`: U+1F3F3 WAVING WHITE
FLAG. -/
def wavingWhiteFlagRune : Nat := 0x1F3F3

/-- UTF-8 encoded length of a Unicode scalar value
(`utf8.EncodeRune`'s byte count). -/
def utf8Len (r : Nat) : Nat :=
  if r < 0x80 then 1 else if r < 0x800 then 2 else if r < 0x10000 then 3 else 4

/-- The test `unicode.Is(unicode.Join_Control, r)`: the Unicode
`Join_Control` property holds exactly for U+200C ZERO WIDTH NON-JOINER
and U+200D ZERO WIDTH JOINER. -/
def isJoinControl (r : Nat) : Bool :=
  r == 0x200C || r == 0x200D

/-- Function `isZeroWidthJoin` (moji.go lines 170-172):
`ZeroWidthJoinSequenceOk && unicode.Is(unicode.Join_Control, r)`. -/
def isZeroWidthJoin (cfg : Config) (r : Nat) : Bool :=
  cfg.zeroWidthJoinSequenceOk && isJoinControl r

/-- Function `isEmojiModifier` (moji.go lines 92-97): false when
`ModifierSequenceOk` is off, otherwise U+1F3FB ≤ ch ≤ U+1F3FF
(the emoji skin-tone modifiers). -/
def isEmojiModifier (cfg : Config) (ch : Nat) : Bool :=
  if !cfg.modifierSequenceOk then false
  else decide (0x1F3FB ≤ ch) && decide (ch ≤ 0x1F3FF)

/-- Modelled from the spec: `isVariationSelectorLike` is called by
`string2moji` but defined outside `src/`.  Per §4.3 rule 3 it recognises
a variation-selector-like code point gated by `VariationSequenceOk`; the
Unicode `Variation_Selector` property covers U+FE00..U+FE0F,
U+E0100..U+E01EF and U+180B..U+180D. -/
def isVariationSelectorLike (cfg : Config) (r : Nat) : Bool :=
  cfg.variationSequenceOk &&
    ((decide (0xFE00 ≤ r) && decide (r ≤ 0xFE0F)) ||
     (decide (0xE0100 ≤ r) && decide (r ≤ 0xE01EF)) ||
     (decide (0x180B ≤ r) && decide (r ≤ 0x180D)))

/-- Modelled from the spec: `rune2moji` is called by `string2moji` but
defined outside `src/`.  Per §3 it builds the BareCodePoint Unit for one
code point, with the special flag code point (referenced in `moji.go` as
`_WavingWhiteFlagCodePoint`) getting its dedicated leaf. -/
def rune2moji (r : Nat) : Moji :=
  if r = wavingWhiteFlagRune then .flag else .raw r

/-- Width of each Moji implementation.
`_ZeroWidthJoinSequence.Width` (lines 56-60) is `s[0].Width() + 1 +
s[1].Width()`; `_ModifierSequence.Width` (lines 107-109) is
`s[0].Width() + s[1].Width()`; `_VariationSequence.Width` (lines
126-133) switches on the dynamic type of `s[0]`: for
`_WavingWhiteFlagCodePoint` it is `s0.Width()`, otherwise
`s0.Width() + 1`.  A bare code point's width comes from the external
width oracle. -/
def width (cfg : Config) : Moji → Nat
  | .raw r => cfg.runeWidth r
  | .flag => cfg.runeWidth wavingWhiteFlagRune
  | .zwj a b => width cfg a + 1 + width cfg b
  | .modifier a b => width cfg a + width cfg b
  | .variation .flag _ => width cfg .flag
  | .variation a _ => width cfg a + 1

/-- The code points a Moji's `WriteTo` emits on a non-failing stream
(`strings.Builder` never fails, so this is exactly what `moji2string`
collects).  `_ZeroWidthJoinSequence.WriteTo` (lines 62-73) writes
`s[0]`, the fixed `zeroWidthJoinRune`, then `s[1]`;
`_ModifierSequence.WriteTo` (lines 111-118) and
`_VariationSequence.WriteTo` (lines 135-142) write `s[0]` then `s[1]`.
A bare code point writes its own code point (`writeRune`). -/
def writeToList : Moji → List Nat
  | .raw r => [r]
  | .flag => [wavingWhiteFlagRune]
  | .zwj a b => writeToList a ++ [zeroWidthJoinRune] ++ writeToList b
  | .modifier a b => writeToList a ++ writeToList b
  | .variation a b => writeToList a ++ writeToList b

/-- Function `saveCursorAfterN` (moji.go lines 144-152): `n` spaces,
then `ESC 7`, then `n` backspaces. -/
def saveCursorAfterN (n : Nat) : List Nat :=
  List.replicate n 0x20 ++ [0x1B, 0x37] ++ List.replicate n 0x08

/-- Function `restoreCursor` (moji.go lines 154-156): `ESC 8`. -/
def restoreCursor : List Nat := [0x1B, 0x38]

/-- The code points a Moji's `PrintTo` emits on a non-failing stream.
`_ZeroWidthJoinSequence.PrintTo` (lines 75-88) switches on the dynamic
type of `s[0]`: for `_WavingWhiteFlagCodePoint` it brackets
`s0.WriteTo; joiner; s[1].WriteTo` with `saveCursorAfterN(s.Width())`
and `restoreCursor`; otherwise it recurses: `s0.PrintTo; joiner;
s[1].PrintTo`.  `_ModifierSequence.PrintTo` (lines 120-122) is
`s.WriteTo`.  `_VariationSequence.PrintTo` (lines 158-166) brackets
`s[0].WriteTo; s[1].WriteTo` with `saveCursorAfterN(s.Width())` and
`restoreCursor`.  The leaves are modelled from the spec: a bare code
point needs no bracket and prints its own code point directly. -/
def printToList (cfg : Config) : Moji → List Nat
  | .raw r => [r]
  | .flag => [wavingWhiteFlagRune]
  | .zwj .flag b =>
      saveCursorAfterN (width cfg (.zwj .flag b)) ++
        writeToList .flag ++ [zeroWidthJoinRune] ++ writeToList b ++
        restoreCursor
  | .zwj a b =>
      printToList cfg a ++ [zeroWidthJoinRune] ++ printToList cfg b
  | .modifier a b => writeToList (.modifier a b)
  | .variation a b =>
      saveCursorAfterN (width cfg (.variation a b)) ++
        writeToList a ++ writeToList b ++ restoreCursor

/-- The in-place update `mojis[len(mojis)-1] = f(mojis[len(mojis)-1])`
of `string2moji`; `none` models the out-of-bounds panic on an empty
slice. -/
def replaceLast (ms : List Moji) (f : Moji → Moji) : Option (List Moji) :=
  match ms.getLast? with
  | none => none
  | some last => some (ms.dropLast ++ [f last])

/-- The loop of `string2moji` (moji.go lines 185-202), one call per
iteration at index `i` over `runes`, carrying the produced `mojis`.
Branch order and guards are those of the source: the ZWJ rule needs
`i > 0` and a following rune and consumes two runes; the variation and
modifier rules need `i > 0`; otherwise a fresh Unit is appended. -/
def s2mLoop (cfg : Config) (runes : List Nat) (i : Nat) (mojis : List Moji) :
    Option (List Moji) :=
  if h : i < runes.length then
    let r := runes.get ⟨i, h⟩
    if h2 : isZeroWidthJoin cfg r = true ∧ 0 < i ∧ i + 1 < runes.length then
      match replaceLast mojis
          (fun last => .zwj last (.raw (runes.get ⟨i + 1, h2.2.2⟩))) with
      | none => none
      | some ms => s2mLoop cfg runes (i + 2) ms
    else if isVariationSelectorLike cfg r = true ∧ 0 < i then
      match replaceLast mojis (fun last => .variation last (.raw r)) with
      | none => none
      | some ms => s2mLoop cfg runes (i + 1) ms
    else if isEmojiModifier cfg r = true ∧ 0 < i then
      match replaceLast mojis (fun last => .modifier last (.raw r)) with
      | none => none
      | some ms => s2mLoop cfg runes (i + 1) ms
    else s2mLoop cfg runes (i + 1) (mojis ++ [rune2moji r])
  else some mojis
termination_by runes.length - i
decreasing_by all_goals omega

/-- Function `string2moji` (moji.go lines 182-204), `Option`-valued:
`none` models an out-of-bounds slice access in a replacement branch. -/
def string2mojiOpt (cfg : Config) (runes : List Nat) : Option (List Moji) :=
  s2mLoop cfg runes 0 []

/-- Function `string2moji` as the total function it is in the source (the
out-of-bounds case is proved unreachable below). -/
def string2moji (cfg : Config) (runes : List Nat) : List Moji :=
  (string2mojiOpt cfg runes).getD []

/-- Function `moji2string` (moji.go lines 206-212): writes every Moji in order to
a `strings.Builder` (which never fails) and returns the result. -/
def moji2string : List Moji → List Nat
  | [] => []
  | m :: ms => writeToList m ++ moji2string ms

/-- A fallible output stream: the code points successfully written so
far, and how many more single-rune writes will succeed before the
stream starts returning errors (an `io.Writer` that fails from some
point on). -/
structure WState where
  out : List Nat
  fuel : Nat
deriving DecidableEq, Repr

/-- Function `writeRune`: encodes one rune and hands it to the stream in a
single `Write` call (defined outside `src/`, used by `moji.go`); on
success it returns the UTF-8 byte count, on stream failure it returns 0
bytes and the error (modelled as `false`). -/
def writeRuneE (st : WState) (r : Nat) : WState × Nat × Bool :=
  if st.fuel = 0 then (st, 0, false)
  else (⟨st.out ++ [r], st.fuel - 1⟩, utf8Len r, true)

/-- The `WriteTo` methods with their error plumbing, statement for
statement.  `_ZeroWidthJoinSequence.WriteTo` (lines 62-73): write
`s[0]`, on error return `(n1, err)`; write the joiner rune, on error
return `(n1+n2, err)`; write `s[1]` and return `(n1+n2+n3, err)`.
`_ModifierSequence.WriteTo` (lines 111-118) and
`_VariationSequence.WriteTo` (lines 135-142): write `s[0]`, on error
return `(n1, err)`; write `s[1]` and return `(n1+n2, err)`.  The result
is (final stream state, byte count, success flag). -/
def writeToE : Moji → WState → WState × Nat × Bool
  | .raw r, st => writeRuneE st r
  | .flag, st => writeRuneE st wavingWhiteFlagRune
  | .zwj a b, st =>
      match writeToE a st with
      | (st1, n1, false) => (st1, n1, false)
      | (st1, n1, true) =>
        match writeRuneE st1 zeroWidthJoinRune with
        | (st2, n2, false) => (st2, n1 + n2, false)
        | (st2, n2, true) =>
          match writeToE b st2 with
          | (st3, n3, ok3) => (st3, n1 + n2 + n3, ok3)
  | .modifier a b, st =>
      match writeToE a st with
      | (st1, n1, false) => (st1, n1, false)
      | (st1, n1, true) =>
        match writeToE b st1 with
        | (st2, n2, ok2) => (st2, n1 + n2, ok2)
  | .variation a b, st =>
      match writeToE a st with
      | (st1, n1, false) => (st1, n1, false)
      | (st1, n1, true) =>
        match writeToE b st1 with
        | (st2, n2, ok2) => (st2, n1 + n2, ok2)

/-- A concrete configuration: every capability flag enabled and a
two-column width table (the Windows-Terminal setting of `moji.go`). -/
def cfgOn : Config := ⟨true, true, true, true, fun _ => 2⟩

/-- A concrete configuration with `ZeroWidthJoinSequenceOk` disabled
and the other capability flags enabled. -/
def cfgNoZwj : Config := ⟨true, false, true, true, fun _ => 1⟩

/-! ## Helper lemmas -/

theorem replaceLast_concat (pre : List Moji) (last : Moji) (f : Moji → Moji) :
    replaceLast (pre ++ [last]) f = some (pre ++ [f last]) := by
  simp [replaceLast, List.getLast?_concat, List.dropLast_concat]

theorem replaceLast_of_ne_nil {ms : List Moji} (h : ms ≠ []) (f : Moji → Moji) :
    ∃ pre last, ms = pre ++ [last] ∧ replaceLast ms f = some (pre ++ [f last]) := by
  rcases List.eq_nil_or_concat ms with rfl | ⟨pre, last, rfl⟩
  · exact absurd rfl h
  · exact ⟨pre, last, by simp [List.concat_eq_append],
      by simp only [List.concat_eq_append, replaceLast_concat]⟩

theorem replaceLast_eq_some {ms ys : List Moji} {f : Moji → Moji}
    (h : replaceLast ms f = some ys) :
    ∃ pre last, ms = pre ++ [last] ∧ ys = pre ++ [f last] := by
  rcases List.eq_nil_or_concat ms with rfl | ⟨pre, last, rfl⟩
  · simp [replaceLast] at h
  · rw [List.concat_eq_append, replaceLast_concat] at h
    exact ⟨pre, last, by simp [List.concat_eq_append], (Option.some.inj h).symm⟩

theorem moji2string_append (xs ys : List Moji) :
    moji2string (xs ++ ys) = moji2string xs ++ moji2string ys := by
  induction xs with
  | nil => simp [moji2string]
  | cons m ms ih => simp [moji2string, ih]

theorem writeTo_rune2moji (r : Nat) : writeToList (rune2moji r) = [r] := by
  unfold rune2moji
  split
  · rename_i hr
    simp [writeToList, hr]
  · simp [writeToList]

/-- Invariant of the `string2moji` loop: the in-bounds guard `i > 0` of
every replacement branch guarantees the produced list is non-empty, so
the loop always returns a value. -/
theorem s2mLoop_isSome (cfg : Config) (runes : List Nat) :
    ∀ i mojis, (0 < i → mojis ≠ []) → (s2mLoop cfg runes i mojis).isSome := by
  intro i mojis
  induction i, mojis using s2mLoop.induct cfg runes with
  | case1 i mojis h r h1 hnone =>
    intro hpre
    obtain ⟨pre, last, rfl, hsome⟩ := replaceLast_of_ne_nil (hpre h1.2.1)
      (fun last => last.zwj (.raw (runes.get ⟨i + 1, h1.2.2⟩)))
    rw [hsome] at hnone
    exact absurd hnone (by simp)
  | case2 i mojis h r h1 ms hsome ih =>
    intro hpre
    rw [s2mLoop.eq_def, dif_pos h]
    simp only [dif_pos h1, hsome]
    apply ih
    intro _
    obtain ⟨pre, last, rfl, hsome2⟩ := replaceLast_of_ne_nil (hpre h1.2.1)
      (fun last => last.zwj (.raw (runes.get ⟨i + 1, h1.2.2⟩)))
    rw [hsome2] at hsome
    cases hsome
    simp
  | case3 i mojis h r hn1 h2 hnone =>
    intro hpre
    obtain ⟨pre, last, rfl, hsome⟩ := replaceLast_of_ne_nil (hpre h2.2)
      (fun last => last.variation (.raw r))
    rw [hsome] at hnone
    exact absurd hnone (by simp)
  | case4 i mojis h r hn1 h2 ms hsome ih =>
    intro hpre
    rw [s2mLoop.eq_def, dif_pos h]
    simp only [dif_neg hn1, if_pos h2, hsome]
    apply ih
    intro _
    obtain ⟨pre, last, rfl, hsome2⟩ := replaceLast_of_ne_nil (hpre h2.2)
      (fun last => last.variation (.raw r))
    rw [hsome2] at hsome
    cases hsome
    simp
  | case5 i mojis h r hn1 hn2 h3 hnone =>
    intro hpre
    obtain ⟨pre, last, rfl, hsome⟩ := replaceLast_of_ne_nil (hpre h3.2)
      (fun last => last.modifier (.raw r))
    rw [hsome] at hnone
    exact absurd hnone (by simp)
  | case6 i mojis h r hn1 hn2 h3 ms hsome ih =>
    intro hpre
    rw [s2mLoop.eq_def, dif_pos h]
    simp only [dif_neg hn1, if_neg hn2, if_pos h3, hsome]
    apply ih
    intro _
    obtain ⟨pre, last, rfl, hsome2⟩ := replaceLast_of_ne_nil (hpre h3.2)
      (fun last => last.modifier (.raw r))
    rw [hsome2] at hsome
    cases hsome
    simp
  | case7 i mojis h r hn1 hn2 hn3 ih =>
    intro hpre
    rw [s2mLoop.eq_def, dif_pos h]
    simp only [dif_neg hn1, if_neg hn2, if_neg hn3]
    apply ih
    intro _
    simp
  | case8 i mojis h =>
    intro hpre
    rw [s2mLoop.eq_def, dif_neg h]
    simp

/-- Invariant of the `string2moji` loop: flattening the produced Units
re-emits the not-yet-consumed input, provided no U+200C is consumed by
the join rule (either the flag is off or the input avoids U+200C) —
the join rule re-emits the fixed `zeroWidthJoinRune` for whichever
Join-Control rune it consumed. -/
theorem s2mLoop_roundtrip (cfg : Config) (runes : List Nat)
    (hc : cfg.zeroWidthJoinSequenceOk = false ∨ 0x200C ∉ runes) :
    ∀ i mojis out, s2mLoop cfg runes i mojis = some out →
      moji2string out = moji2string mojis ++ runes.drop i := by
  intro i mojis
  induction i, mojis using s2mLoop.induct cfg runes with
  | case1 i mojis h r h1 hnone =>
    intro out hout
    rw [s2mLoop.eq_def, dif_pos h] at hout
    simp only [dif_pos h1, hnone] at hout
    exact Option.noConfusion hout
  | case2 i mojis h r h1 ms hsome ih =>
    intro out hout
    rw [s2mLoop.eq_def, dif_pos h] at hout
    simp only [dif_pos h1, hsome] at hout
    have hr : runes[i] = 0x200D := by
      have hz := h1.1
      simp only [isZeroWidthJoin, isJoinControl, Bool.and_eq_true, Bool.or_eq_true,
        beq_iff_eq] at hz
      rcases hz.2 with h200 | h200
      · exfalso
        rcases hc with hc | hc
        · rw [hc] at hz
          exact Bool.false_ne_true hz.1
        · refine hc ?_
          rw [← h200]
          exact List.get_mem runes i h
      · exact h200
    obtain ⟨pre, last, hmeq, hms⟩ := replaceLast_eq_some hsome
    subst hmeq
    subst hms
    rw [ih out hout, List.drop_eq_getElem_cons h, List.drop_eq_getElem_cons h1.2.2, hr]
    simp [moji2string_append, moji2string, writeToList, zeroWidthJoinRune,
      List.get_eq_getElem]
  | case3 i mojis h r hn1 h2 hnone =>
    intro out hout
    rw [s2mLoop.eq_def, dif_pos h] at hout
    simp only [dif_neg hn1, if_pos h2, hnone] at hout
    exact Option.noConfusion hout
  | case4 i mojis h r hn1 h2 ms hsome ih =>
    intro out hout
    rw [s2mLoop.eq_def, dif_pos h] at hout
    simp only [dif_neg hn1, if_pos h2, hsome] at hout
    obtain ⟨pre, last, hmeq, hms⟩ := replaceLast_eq_some hsome
    subst hmeq
    subst hms
    rw [ih out hout, List.drop_eq_getElem_cons h]
    simp [moji2string_append, moji2string, writeToList, List.get_eq_getElem]
    exact (List.drop_eq_getElem_cons h).symm
  | case5 i mojis h r hn1 hn2 h3 hnone =>
    intro out hout
    rw [s2mLoop.eq_def, dif_pos h] at hout
    simp only [dif_neg hn1, if_neg hn2, if_pos h3, hnone] at hout
    exact Option.noConfusion hout
  | case6 i mojis h r hn1 hn2 h3 ms hsome ih =>
    intro out hout
    rw [s2mLoop.eq_def, dif_pos h] at hout
    simp only [dif_neg hn1, if_neg hn2, if_pos h3, hsome] at hout
    obtain ⟨pre, last, hmeq, hms⟩ := replaceLast_eq_some hsome
    subst hmeq
    subst hms
    rw [ih out hout, List.drop_eq_getElem_cons h]
    simp [moji2string_append, moji2string, writeToList, List.get_eq_getElem]
    exact (List.drop_eq_getElem_cons h).symm
  | case7 i mojis h r hn1 hn2 hn3 ih =>
    intro out hout
    rw [s2mLoop.eq_def, dif_pos h] at hout
    simp only [dif_neg hn1, if_neg hn2, if_neg hn3] at hout
    rw [ih out hout, List.drop_eq_getElem_cons h]
    simp [moji2string_append, moji2string, writeTo_rune2moji, List.get_eq_getElem]
    exact (List.drop_eq_getElem_cons h).symm
  | case8 i mojis h =>
    intro out hout
    rw [s2mLoop.eq_def, dif_neg h] at hout
    cases hout
    rw [List.drop_eq_nil_of_le (by omega)]
    simp

/-- The total `string2moji` agrees with the `Option`-valued embedding:
the loop never hits the out-of-bounds case. -/
theorem string2mojiOpt_eq (cfg : Config) (runes : List Nat) :
    string2mojiOpt cfg runes = some (string2moji cfg runes) := by
  have h := s2mLoop_isSome cfg runes 0 []
    (fun h0 => absurd h0 (Nat.lt_irrefl 0))
  rcases Option.isSome_iff_exists.mp h with ⟨out, hout⟩
  simp [string2moji, string2mojiOpt, hout]

/-! ## Claims -/

/-- C3: for every VariationSequence, Print emits exactly, in order:
`width` spaces, ESC 7, `width` backspaces, the base's output via
WriteTo, the selector's output via WriteTo, ESC 8 — the inner operands
go through WriteTo, never through a nested Print bracket. -/
theorem variation_print_exact_sequence (cfg : Config) (base sel : Moji) :
    printToList cfg (.variation base sel) =
      List.replicate (width cfg (.variation base sel)) 0x20 ++ [0x1B, 0x37] ++
        List.replicate (width cfg (.variation base sel)) 0x08 ++
        writeToList base ++ writeToList sel ++ [0x1B, 0x38] := by
  simp [printToList, saveCursorAfterN, restoreCursor]

/-- C4: a VariationSequence's Width is the base's width when the base
is the flag code point, and the base's width plus 1 otherwise; in
particular a composite base merely containing the flag code point
still gets the plus 1. -/
theorem variation_width_flag_exception (cfg : Config) (base sel : Moji) :
    (base = .flag → width cfg (.variation base sel) = width cfg base) ∧
    (base ≠ .flag → width cfg (.variation base sel) = width cfg base + 1) ∧
    width cfg (.variation (.zwj .flag base) sel) =
      width cfg (.zwj .flag base) + 1 := by
  refine ⟨?_, ?_, rfl⟩
  · rintro rfl
    rfl
  · intro h
    cases base
    case flag => exact absurd rfl h
    all_goals rfl

/-- C4 witness: both width branches at concrete bases. -/
theorem variation_width_flag_exception_witness :
    width cfgOn (.variation .flag (.raw 0xFE0F)) = width cfgOn .flag ∧
    width cfgOn (.variation (.raw 49) (.raw 0xFE0F)) = width cfgOn (.raw 49) + 1 :=
  ⟨(variation_width_flag_exception cfgOn .flag (.raw 0xFE0F)).1 rfl,
   (variation_width_flag_exception cfgOn (.raw 49) (.raw 0xFE0F)).2.1 (by decide)⟩

/-- C5: ZWJSequence width is `a + 1 + b`; composing person ZWJ heart
ZWJ person with all flags enabled yields one ZWJSequence nested inside
another whose total width is the sum of the three base widths plus 2. -/
theorem zwj_width_additive :
    (∀ (cfg : Config) (a b : Moji),
      width cfg (.zwj a b) = width cfg a + 1 + width cfg b) ∧
    ∀ rw : Nat → Nat,
      string2moji ⟨true, true, true, true, rw⟩
          [0x1F9D1, 0x200D, 0x2764, 0x200D, 0x1F9D1] =
        [.zwj (.zwj (.raw 0x1F9D1) (.raw 0x2764)) (.raw 0x1F9D1)] ∧
      width ⟨true, true, true, true, rw⟩
          (.zwj (.zwj (.raw 0x1F9D1) (.raw 0x2764)) (.raw 0x1F9D1)) =
        rw 0x1F9D1 + rw 0x2764 + rw 0x1F9D1 + 2 := by
  refine ⟨fun cfg a b => rfl, fun rw => ⟨?_, ?_⟩⟩
  · simp [string2moji, string2mojiOpt, s2mLoop, isZeroWidthJoin, isJoinControl,
      isVariationSelectorLike, isEmojiModifier, replaceLast, rune2moji,
      wavingWhiteFlagRune, List.get]
  · simp [width]
    omega

/-- C6: a ModifierSequence's Print emits exactly the output of its
WriteTo (base then modifier, no cursor trick), and its Width is the
base's width plus the modifier's width. -/
theorem modifier_print_is_writeTo (cfg : Config) (a b : Moji) :
    printToList cfg (.modifier a b) = writeToList (.modifier a b) ∧
    printToList cfg (.modifier a b) = writeToList a ++ writeToList b ∧
    width cfg (.modifier a b) = width cfg a + width cfg b :=
  ⟨rfl, rfl, rfl⟩

/-- C1 counterexample: for the ZWJSequence of the bare code points
`A` and `B` — whose left operand is not the flag code point — Print
does NOT perform the cursor-anchor trick: its output is not the
bracketed sequence of padding spaces, save-cursor, backspaces, content
and restore-cursor that the claim requires. -/
theorem zwj_default_print_counterexample :
    printToList cfgOn (.zwj (.raw 65) (.raw 66)) ≠
      saveCursorAfterN (width cfgOn (.zwj (.raw 65) (.raw 66))) ++
        writeToList (.zwj (.raw 65) (.raw 66)) ++ restoreCursor := by
  decide

/-- C1 (amended): ZWJSequence Print applies the cursor-anchor trick
only when the left operand is the flag code point — once, at the
outermost composite, with both operands emitted via WriteTo, not
recursive Print; for every other left operand Print recurses, printing
the left operand, the joiner and the right operand with no bracket at
this level. -/
theorem zwj_print_flag_bracket (cfg : Config) (a b : Moji) :
    printToList cfg (.zwj .flag b) =
      saveCursorAfterN (width cfg (.zwj .flag b)) ++
        writeToList .flag ++ [zeroWidthJoinRune] ++ writeToList b ++
        restoreCursor ∧
    (a ≠ .flag →
      printToList cfg (.zwj a b) =
        printToList cfg a ++ [zeroWidthJoinRune] ++ printToList cfg b) := by
  constructor
  · simp [printToList]
  · intro ha
    cases a
    case flag => exact absurd rfl ha
    all_goals simp [printToList]

/-- C1 witness: the default branch at a concrete non-flag operand. -/
theorem zwj_print_flag_bracket_witness :
    printToList cfgOn (.zwj (.raw 65) (.raw 66)) =
      printToList cfgOn (.raw 65) ++ [zeroWidthJoinRune] ++
        printToList cfgOn (.raw 66) :=
  (zwj_print_flag_bracket cfgOn (.raw 65) (.raw 66)).2 (by decide)

/-- C2 counterexample: with all flags enabled, the string
`A U+200C B` does not survive the roundtrip — the composer folds it
into a ZWJSequence whose WriteTo re-emits U+200D in place of the
consumed U+200C. -/
theorem roundtrip_counterexample :
    moji2string (string2moji cfgOn [65, 0x200C, 66]) ≠ [65, 0x200C, 66] := by
  simp [string2moji, string2mojiOpt, s2mLoop, isZeroWidthJoin, isJoinControl,
    isVariationSelectorLike, isEmojiModifier, replaceLast, rune2moji,
    wavingWhiteFlagRune, cfgOn, moji2string, writeToList, zeroWidthJoinRune,
    List.get]

/-- C2 (amended): for every input string containing no U+200C and
every setting of the capability flags, flattening the Composer's
output re-emits exactly the code points of the original string in
original order (U+200C consumed by the join rule is the one lossy
case: it is re-emitted as U+200D). -/
theorem roundtrip_without_zwnj (cfg : Config) (runes : List Nat)
    (h : 0x200C ∉ runes) :
    moji2string (string2moji cfg runes) = runes := by
  have h1 := string2mojiOpt_eq cfg runes
  rw [string2mojiOpt] at h1
  have h2 := s2mLoop_roundtrip cfg runes (Or.inr h) 0 [] _ h1
  simpa [moji2string] using h2

/-- C2 witness: the roundtrip at a concrete joiner-free string. -/
theorem roundtrip_without_zwnj_witness :
    moji2string (string2moji cfgOn [104, 101, 108, 108, 111]) =
      [104, 101, 108, 108, 111] :=
  roundtrip_without_zwnj cfgOn [104, 101, 108, 108, 111] (by decide)

/-- C7: a failed constituent write aborts the composite's WriteTo at
once — the returned stream state is exactly the state after the failed
constituent (none of the remaining writes is performed) and the
returned count is the bytes written before the failure. -/
theorem writeTo_error_propagation (a b : Moji) (st : WState) :
    ((writeToE a st).2.2 = false →
      writeToE (.zwj a b) st = ((writeToE a st).1, (writeToE a st).2.1, false) ∧
      writeToE (.modifier a b) st =
        ((writeToE a st).1, (writeToE a st).2.1, false) ∧
      writeToE (.variation a b) st =
        ((writeToE a st).1, (writeToE a st).2.1, false)) ∧
    ((writeToE a st).2.2 = true →
      (writeRuneE (writeToE a st).1 zeroWidthJoinRune).2.2 = false →
      writeToE (.zwj a b) st =
        ((writeRuneE (writeToE a st).1 zeroWidthJoinRune).1,
          (writeToE a st).2.1 +
            (writeRuneE (writeToE a st).1 zeroWidthJoinRune).2.1,
          false)) ∧
    ((writeToE a st).2.2 = true →
      (writeToE b (writeToE a st).1).2.2 = false →
      writeToE (.modifier a b) st =
        ((writeToE b (writeToE a st).1).1,
          (writeToE a st).2.1 + (writeToE b (writeToE a st).1).2.1, false) ∧
      writeToE (.variation a b) st =
        ((writeToE b (writeToE a st).1).1,
          (writeToE a st).2.1 + (writeToE b (writeToE a st).1).2.1, false)) ∧
    ((writeToE a st).2.2 = true →
      (writeRuneE (writeToE a st).1 zeroWidthJoinRune).2.2 = true →
      (writeToE b (writeRuneE (writeToE a st).1 zeroWidthJoinRune).1).2.2 =
        false →
      writeToE (.zwj a b) st =
        ((writeToE b (writeRuneE (writeToE a st).1 zeroWidthJoinRune).1).1,
          (writeToE a st).2.1 +
            (writeRuneE (writeToE a st).1 zeroWidthJoinRune).2.1 +
            (writeToE b
              (writeRuneE (writeToE a st).1 zeroWidthJoinRune).1).2.1,
          false)) := by
  rcases hab : writeToE a st with ⟨st1, n1, ok1⟩
  refine ⟨?_, ?_, ?_, ?_⟩
  · intro hfail
    simp only [hab] at hfail
    subst hfail
    refine ⟨?_, ?_, ?_⟩ <;> simp [writeToE, hab]
  · intro hok hfail2
    simp only [hab] at hok
    subst hok
    rcases hj : writeRuneE st1 zeroWidthJoinRune with ⟨st2, n2, ok2⟩
    simp only [hab, hj] at hfail2
    subst hfail2
    simp [writeToE, hab, hj]
  · intro hok hfailb
    simp only [hab] at hok
    subst hok
    rcases hb : writeToE b st1 with ⟨st2, n2, ok2⟩
    simp only [hab, hb] at hfailb
    subst hfailb
    constructor <;> simp [writeToE, hab, hb]
  · intro hok hokj hfailb
    simp only [hab] at hok
    subst hok
    rcases hj : writeRuneE st1 zeroWidthJoinRune with ⟨st2, n2, ok2⟩
    simp only [hab, hj] at hokj
    subst hokj
    rcases hb : writeToE b st2 with ⟨st3, n3, ok3⟩
    simp only [hab, hj, hb] at hfailb
    subst hfailb
    simp [writeToE, hab, hj, hb]

/-- C7 witness: a stream that fails on its first write. -/
theorem writeTo_error_propagation_witness :
    writeToE (.zwj (.raw 65) (.raw 66)) ⟨[], 0⟩ = (⟨[], 0⟩, 0, false) := by
  have h :=
    ((writeTo_error_propagation (.raw 65) (.raw 66) ⟨[], 0⟩).1 (by decide)).1
  simpa using h

/-- C8: with `ZeroWidthJoinSequenceOk = false`, a Join-Control code
point between two letters composes to three independent bare Units,
never a ZWJSequence; and a leading joiner, selector or modifier with
no preceding Unit becomes its own bare code point Unit. -/
theorem flag_gating_three_bare_units (cfg : Config) (a j b : Nat)
    (hflag : cfg.zeroWidthJoinSequenceOk = false)
    (hj : isJoinControl j = true)
    (hbv : isVariationSelectorLike cfg b = false)
    (hbm : isEmojiModifier cfg b = false) :
    string2moji cfg [a, j, b] = [rune2moji a, .raw j, rune2moji b] ∧
    ∀ r, (isJoinControl r = true ∨ isVariationSelectorLike cfg r = true ∨
        isEmojiModifier cfg r = true) →
      string2moji cfg [r] = [.raw r] := by
  have hj2 : j = 0x200C ∨ j = 0x200D := by
    simpa [isJoinControl] using hj
  have hz : ∀ r, isZeroWidthJoin cfg r = false := fun r => by
    simp [isZeroWidthJoin, hflag]
  have hjv : isVariationSelectorLike cfg j = false := by
    rcases hj2 with rfl | rfl <;> simp [isVariationSelectorLike]
  have hjm : isEmojiModifier cfg j = false := by
    rcases hj2 with rfl | rfl <;> simp [isEmojiModifier]
  have hjr : rune2moji j = .raw j := by
    rcases hj2 with rfl | rfl <;> simp [rune2moji, wavingWhiteFlagRune]
  constructor
  · simp [string2moji, string2mojiOpt, s2mLoop, hz, hjv, hjm, hjr, hbv, hbm,
      List.get]
  · intro r hr
    have hr3 : r ≠ wavingWhiteFlagRune := by
      rcases hr with h | h | h
      · rcases (by simpa [isJoinControl] using h : r = 0x200C ∨ r = 0x200D) with
          rfl | rfl <;> simp [wavingWhiteFlagRune]
      · simp only [isVariationSelectorLike, Bool.and_eq_true, Bool.or_eq_true,
          decide_eq_true_eq] at h
        obtain ⟨-, h⟩ := h
        simp only [wavingWhiteFlagRune]
        rcases h with (⟨h1, h2⟩ | ⟨h1, h2⟩) | ⟨h1, h2⟩ <;> omega
      · rw [isEmojiModifier] at h
        split at h
        · exact Bool.noConfusion h
        · simp only [Bool.and_eq_true, decide_eq_true_eq] at h
          obtain ⟨h1, h2⟩ := h
          simp only [wavingWhiteFlagRune]
          omega
    simp [string2moji, string2mojiOpt, s2mLoop, rune2moji, hr3, List.get]

/-- C8 witness: concrete letters around U+200C with ZWJ disabled, and
a lone U+200D string. -/
theorem flag_gating_three_bare_units_witness :
    string2moji cfgNoZwj [65, 0x200C, 66] = [.raw 65, .raw 0x200C, .raw 66] ∧
    string2moji cfgNoZwj [0x200D] = [.raw 0x200D] := by
  have h := flag_gating_three_bare_units cfgNoZwj 65 0x200C 66 rfl
    (by decide) (by decide) (by decide)
  refine ⟨?_, h.2 0x200D (Or.inl (by decide))⟩
  have h1 := h.1
  simpa [rune2moji, wavingWhiteFlagRune] using h1

/-- C9: `string2moji` is total: for every input and flag setting the
loop returns a value (the index `len(mojis)-1` is in bounds whenever a
composition branch fires, since the `i > 0` guard implies at least one
Unit was already produced — the second conjunct is that loop
invariant). -/
theorem string2moji_total (cfg : Config) (runes : List Nat) :
    string2mojiOpt cfg runes = some (string2moji cfg runes) ∧
    ∀ i mojis, (0 < i → mojis ≠ []) → (s2mLoop cfg runes i mojis).isSome :=
  ⟨string2mojiOpt_eq cfg runes, s2mLoop_isSome cfg runes⟩

/-- C9 witness: the loop invariant instantiated mid-loop with one
produced Unit. -/
theorem string2moji_total_witness :
    string2mojiOpt cfgOn [65, 0x200C, 66] =
      some (string2moji cfgOn [65, 0x200C, 66]) ∧
    (s2mLoop cfgOn [65, 0x200C, 66] 1 [.raw 65]).isSome :=
  ⟨(string2moji_total cfgOn [65, 0x200C, 66]).1,
   (string2moji_total cfgOn [65, 0x200C, 66]).2 1 [.raw 65]
     (fun _ => by decide)⟩

/-- C10: when `ZeroWidthJoinSequenceOk` is true the join rule accepts
every Join-Control code point, U+200C included, but a ZWJSequence's
WriteTo emits the fixed U+200D between its operands, so flattening
`A U+200C B` yields `A U+200D B`, different from the input. -/
theorem zwnj_accepted_but_zwj_emitted (cfg : Config)
    (h : cfg.zeroWidthJoinSequenceOk = true) :
    isZeroWidthJoin cfg 0x200C = true ∧
    (∀ a b : Moji, writeToList (.zwj a b) =
      writeToList a ++ [0x200D] ++ writeToList b) ∧
    string2moji cfg [65, 0x200C, 66] = [.zwj (.raw 65) (.raw 66)] ∧
    moji2string (string2moji cfg [65, 0x200C, 66]) = [65, 0x200D, 66] := by
  have hs : string2moji cfg [65, 0x200C, 66] = [.zwj (.raw 65) (.raw 66)] := by
    simp [string2moji, string2mojiOpt, s2mLoop, isZeroWidthJoin, isJoinControl,
      isVariationSelectorLike, isEmojiModifier, replaceLast, rune2moji,
      wavingWhiteFlagRune, h, List.get]
  refine ⟨by simp [isZeroWidthJoin, isJoinControl, h], ?_, hs, ?_⟩
  · intro a b
    simp [writeToList, zeroWidthJoinRune]
  · rw [hs]
    simp [moji2string, writeToList, zeroWidthJoinRune]

/-- C10 witness: the divergent flattening at the all-enabled
configuration. -/
theorem zwnj_accepted_but_zwj_emitted_witness :
    moji2string (string2moji cfgOn [65, 0x200C, 66]) = [65, 0x200D, 66] :=
  (zwnj_accepted_but_zwj_emitted cfgOn rfl).2.2.2

end Moji2
